import Mathlib

/-!
Shallow embedding of the job-lifecycle core of `src/app.py` (a FastAPI
YouTube-downloader service).  The translation follows the source
directly: the in-memory `jobs` dictionary becomes an association of job
records whose optional fields model dictionary keys that may be absent,
route handlers become functions returning `Except` values (an
`HTTPException` raised by a handler is an `error` result), and the
background task `process_download` together with its progress hook and
the post-retrieval cleanup task is modelled as a small-step transition
relation on a per-job state.  Byte counters are naturals and the stored
`progress` value is a rational, embedding the exact arithmetic the hook
performs.  Each definition cites the lines of `src/app.py` it embeds.
-/

namespace YTApp

/-- The four values the `status` key of a job record takes in `app.py`
(the strings `queued`, `processing`, `completed`, `failed`). -/
inductive Status
  | queued
  | processing
  | completed
  | failed
deriving DecidableEq

/-- One job record, i.e. one value `jobs[job_id]` of the in-memory store
(`app.py` line 31).  An `Option` field models a dictionary key that is
only present after a particular assignment: `file_path` and `filename`
are written at lines 163-164, `error` at line 171.  `status`, `url` and
`progress` are present from creation (lines 228-232). -/
structure JobRecord where
  status : Status
  url : String
  progress : ℚ
  file_path : Option String := none
  filename : Option String := none
  error : Option String := none
deriving DecidableEq

/-- The record created by the `/api/queue` route (`app.py` lines 228-232). -/
def initialJob (url : String) : JobRecord :=
  { status := .queued, url := url, progress := 0 }

/-- An HTTP error response raised via `HTTPException(status_code, detail)`. -/
structure HTTPError where
  status_code : Nat
  detail : String
deriving DecidableEq

/-- Body returned by the `/api/status/job_id` route (`app.py` lines 250-254). -/
structure StatusBody where
  status : Status
  progress : ℚ
  error : Option String
deriving DecidableEq

/-- `jobs.get(job_id)` (`app.py` lines 246 and 258): lookup in the store. -/
def jobsGet (jobs : List (String × JobRecord)) (job_id : String) : Option JobRecord :=
  jobs.lookup job_id

/-- The `/api/status/job_id` route `get_status` (`app.py` lines 244-254):
a 404 "Job not found" when the id is unknown, otherwise the job's status,
progress and error.  (`job.get("progress", 0)` is a plain field read here
because every record is created with a `progress` key.) -/
def get_status (job : Option JobRecord) : Except HTTPError StatusBody :=
  match job with
  | none => .error ⟨404, "Job not found"⟩
  | some j => .ok ⟨j.status, j.progress, j.error⟩

/-- The ways a call of `download_file` can fail: the `HTTPException`
raised deliberately at `app.py` line 260, or a `KeyError` escaping from
the unguarded dictionary accesses `job["file_path"]` and
`job["filename"]` at lines 262-263. -/
inductive RetrieveFail
  | http (e : HTTPError)
  | keyError (key : String)
deriving DecidableEq

/-- The `/api/download/job_id` route `download_file` (`app.py` lines
256-276) up to building the `FileResponse`: on success it yields the file
path and download filename served to the client; the cleanup task it
schedules (lines 265-270) is the `cleanup` step of the transition system
below.  Note the single combined guard of line 259: an absent record and
a record whose status is not `completed` produce the *same* 400 error. -/
def download_file (job : Option JobRecord) : Except RetrieveFail (String × String) :=
  match job with
  | none => .error (.http ⟨400, "File not ready or job failed"⟩)
  | some j =>
    if j.status ≠ Status.completed then
      .error (.http ⟨400, "File not ready or job failed"⟩)
    else
      match j.file_path, j.filename with
      | some fp, some fn => .ok (fp, fn)
      | none, _ => .error (.keyError "file_path")
      | some _, none => .error (.keyError "filename")

/-- One dictionary passed to the progress hook with
`d['status'] == 'downloading'` (`app.py` lines 115-123): the optional
byte counters, plus a flag recording whether evaluating the body raises
an exception (the `try`/`except Exception: pass` of lines 116-123
swallows any such exception, leaving the stored progress unchanged). -/
structure HookSample where
  total_bytes : Option Nat
  total_bytes_estimate : Option Nat
  downloaded_bytes : Option Nat
  raises : Bool
deriving DecidableEq

/-- `total = d.get('total_bytes') or d.get('total_bytes_estimate')`
followed by the truthiness test `if total:` (`app.py` lines 117-119):
the result is `some t` with `t ≠ 0` exactly when the Python expression
is truthy, `none` when it is `None` or `0`. -/
def effectiveTotal (total_bytes total_bytes_estimate : Option Nat) : Option Nat :=
  let t : Option Nat :=
    match total_bytes with
    | some n => if n = 0 then total_bytes_estimate else some n
    | none => total_bytes_estimate
  match t with
  | some n => if n = 0 then none else some n
  | none => none

/-- The two kinds of event `progress_hook` reacts to (`app.py` lines
114-126): a `downloading` sample and the `finished` signal emitted when
the raw transfer ends (post-processing may still follow). -/
inductive HookEvent
  | downloading (d : HookSample)
  | finished
deriving DecidableEq

/-- `progress_hook` (`app.py` lines 114-126) as a function from the
previously stored progress to the newly stored progress.  On a
`downloading` sample with a truthy total it stores
`(downloaded / total) * 100` (line 120-121); with no usable total, or
when the body raises (swallowed by the `except`), the stored value is
unchanged; on `finished` it stores `99` (line 125).  The function is
total: no exception ever propagates back to the caller (yt-dlp). -/
def progress_hook (ev : HookEvent) (prev : ℚ) : ℚ :=
  match ev with
  | .downloading d =>
    if d.raises then prev
    else
      match effectiveTotal d.total_bytes d.total_bytes_estimate with
      | some t => ((d.downloaded_bytes.getD 0 : ℚ) / (t : ℚ)) * 100
      | none => prev
  | .finished => 99

/-- One entry of the `postprocessors` list of the yt-dlp options
(`app.py` lines 139-143). -/
structure PostProcessor where
  key : String
  preferredcodec : String
  preferredquality : String
deriving DecidableEq

/-- The download-shaping part of the yt-dlp option dictionary built in
`process_download` (`app.py` lines 136-149): the `format` expression,
the optional `merge_output_format`, and the `postprocessors` list.  The
remaining options (output template, progress hook registration, the
user-agent / source-address / cookie base options of `get_ydl_opts`) do
not interact with the claims about format selection. -/
structure FormatOpts where
  format : String
  merge_output_format : Option String := none
  postprocessors : List PostProcessor := []
deriving DecidableEq

/-- Lines 136-149 of `app.py`: the branch on `is_audio_only`, and inside
the video branch the conditional expression
`f"(format_id)+bestaudio/best" if format_id != 'best' else "bestvideo+bestaudio/best"`. -/
def buildFormatOpts (format_id : String) (is_audio_only : Bool) : FormatOpts :=
  if is_audio_only then
    { format := "bestaudio/best",
      postprocessors := [{ key := "FFmpegExtractAudio",
                           preferredcodec := "mp3",
                           preferredquality := "192" }] }
  else
    { format := if format_id ≠ "best" then format_id ++ "+bestaudio/best"
                else "bestvideo+bestaudio/best",
      merge_output_format := some "mp4" }

/-- `os.path.basename` for the forward-slash paths the app builds. -/
def basename (p : String) : String :=
  (p.splitOn "/").getLastD ""

/-- What the `ydl.extract_info(url, download=True)` call yields on
success (`app.py` lines 153-161): `requested_downloads` is `some` list
of file paths when the key is present in the returned info dictionary
(each entry standing for one `requested_downloads[i]['filepath']`), and
`dirFiles` is the result of `os.listdir(job_dir)`. -/
structure FetchInfo where
  requested_downloads : Option (List String)
  dirFiles : List String
deriving DecidableEq

/-- Lines 155-161 of `app.py`: prefer `requested_downloads[0]['filepath']`
when that key is present (an empty list raises `IndexError`, whose text
is "list index out of range"); otherwise take `os.listdir(job_dir)[0]`
joined onto the job directory, raising "File not found after download"
when the directory is empty.  An `error` result is an exception raised
inside the `try`, handled by the `except` of lines 168-172. -/
def resolveArtifact (job_dir : String) (info : FetchInfo) : Except String String :=
  match info.requested_downloads with
  | some fps =>
    match fps with
    | fp :: _ => .ok fp
    | [] => .error "list index out of range"
  | none =>
    match info.dirFiles with
    | [] => .error "File not found after download"
    | f :: _ => .ok (job_dir ++ "/" ++ f)

/-- Lines 151-172 of `app.py`: the tail of `process_download`.  Given the
record at entry to the `try` and the outcome of the fetch (`error msg` =
the fetch raised, `ok info` = it returned), produce the updated record
and whether `shutil.rmtree(job_dir, ignore_errors=True)` was executed.
On success the artifact path is resolved (which may itself raise into
the `except`), then `file_path`, `filename`, `status = completed` and
`progress = 100` are written (lines 163-166, modelled as one atomic
update of the record; only `process_download` writes these keys).  On
any exception, `status = failed` and `error = str(e)` are written and
the job directory is removed (lines 168-172); the function is total, so
no exception propagates out of `process_download`. -/
def finishJob (r : JobRecord) (job_dir : String) (res : Except String FetchInfo) :
    JobRecord × Bool :=
  match res with
  | .error msg => ({ r with status := .failed, error := some msg }, true)
  | .ok info =>
    match resolveArtifact job_dir info with
    | .error msg => ({ r with status := .failed, error := some msg }, true)
    | .ok fp =>
      ({ r with file_path := some fp, filename := some (basename fp),
                status := .completed, progress := 100 }, false)

/-- Where the background task for a job stands: not yet scheduled
(`idle`), scheduled by `/api/queue` but not yet begun (`notStarted`),
inside `process_download` with the fetch in flight (`running`), or
returned (`done`).  Python runs `process_download` exactly once per
enqueued job, and its statements execute in program order. -/
inductive Phase
  | idle
  | notStarted
  | running
  | done
deriving DecidableEq

/-- The state of one job id, as observable through the store: the record
`jobs.get(job_id)` (`none` when the key is absent or was popped), the
phase of its background task, whether its working directory exists, and
whether a `cleanup_job_dir` task has been scheduled by a successful
retrieval (`app.py` line 270).  Keys of the `jobs` dictionary are
independent — no operation on another job id touches this state — so the
per-job view is faithful to the shared store. -/
structure JobState where
  record : Option JobRecord
  phase : Phase
  dirExists : Bool
  pendingCleanup : Bool
deriving DecidableEq

/-- Before `/api/queue` runs for this id: no record, nothing scheduled. -/
def initState : JobState := ⟨none, .idle, false, false⟩

/-- The events that mutate the state of one job, each translated from
the statement(s) of `app.py` it names:

* `enqueue` — `/api/queue` (lines 227-240): create the `queued` record
  and schedule `process_download`;
* `start` — `process_download` entry (lines 104-108): create the job
  directory, set `status = processing`, `progress = 0`;
* `hook` — one invocation of `progress_hook` during the fetch
  (lines 114-126), overwriting `progress` with `progress_hook ev`;
* `finish` — the fetch returns or raises and the `try`/`except` tail
  runs (lines 151-172), as embedded by `finishJob`;
* `retrieve` — a successful `/api/download` call (lines 256-276): only
  possible when `status == completed` (line 259), leaves the record in
  place and schedules the cleanup task;
* `cleanup` — the scheduled `cleanup_job_dir` runs (lines 265-268):
  `shutil.rmtree` on the directory, then `jobs.pop(job_id, None)`.

Queries (`get_status`) and failed `download_file` calls read the store
without mutating it, so they are not steps. -/
inductive Step : JobState → JobState → Prop
  | enqueue (url : String) (d c : Bool) :
      Step ⟨none, .idle, d, c⟩ ⟨some (initialJob url), .notStarted, d, c⟩
  | start (r : JobRecord) (d c : Bool) :
      Step ⟨some r, .notStarted, d, c⟩
           ⟨some { r with status := .processing, progress := 0 }, .running, true, c⟩
  | hook (r : JobRecord) (ev : HookEvent) (d c : Bool) :
      Step ⟨some r, .running, d, c⟩
           ⟨some { r with progress := progress_hook ev r.progress }, .running, d, c⟩
  | finish (r : JobRecord) (job_dir : String) (res : Except String FetchInfo) (d c : Bool) :
      Step ⟨some r, .running, d, c⟩
           ⟨some (finishJob r job_dir res).1, .done,
            d && !(finishJob r job_dir res).2, c⟩
  | retrieve (r : JobRecord) (p : Phase) (d c : Bool) (hc : r.status = .completed) :
      Step ⟨some r, p, d, c⟩ ⟨some r, p, d, true⟩
  | cleanup (r : JobRecord) (p : Phase) (d : Bool) :
      Step ⟨some r, p, d, true⟩ ⟨none, p, false, false⟩

/-- The states reachable from the empty initial state through any
interleaving of the events above. -/
def Reach (s : JobState) : Prop := Relation.ReflTransGen Step initState s

/-- Per-record invariant: the optional fields track the status (the
artifact fields are present exactly on `completed`, the error text
exactly on `failed`), and a completed record carries `progress = 100`. -/
def recordOK (r : JobRecord) : Prop :=
  (r.file_path.isSome ↔ r.status = .completed) ∧
  (r.filename.isSome ↔ r.status = .completed) ∧
  (r.error.isSome ↔ r.status = .failed) ∧
  (r.status = .completed → r.progress = 100)

/-- Inductive invariant of the transition system. -/
structure Inv (s : JobState) : Prop where
  rec_ok : ∀ r, s.record = some r → recordOK r
  idle_none : s.phase = .idle → s.record = none
  notStarted_queued : ∀ r, s.phase = .notStarted → s.record = some r → r.status = .queued
  running_processing : ∀ r, s.phase = .running → s.record = some r → r.status = .processing
  pending_completed : ∀ r, s.pendingCleanup = true → s.record = some r → r.status = .completed
  pending_some : s.pendingCleanup = true → s.record ≠ none

theorem inv_init : Inv initState := by
  constructor <;> simp [initState]

theorem inv_step {s s' : JobState} (h : Inv s) (hs : Step s s') : Inv s' := by
  cases hs with
  | enqueue url d c =>
    have hc : c = false := by
      cases c with
      | false => rfl
      | true => exact absurd rfl (fun heq => h.pending_some rfl heq)
    subst hc
    constructor
    · intro r hr
      obtain rfl : initialJob url = r := by injection hr
      simp [recordOK, initialJob]
    · intro hp; cases hp
    · intro r hp hr
      obtain rfl : initialJob url = r := by injection hr
      rfl
    · intro r hp; cases hp
    · intro r hp; cases hp
    · intro hp; cases hp
  | start r d c =>
    have hq : r.status = .queued := h.notStarted_queued r rfl rfl
    have hok : recordOK r := h.rec_ok r rfl
    have hc : c = false := by
      cases c with
      | false => rfl
      | true => exact absurd (h.pending_completed r rfl rfl) (by simp [hq])
    subst hc
    constructor
    · intro r' hr'
      obtain rfl : ({ r with status := .processing, progress := 0 } : JobRecord) = r' := by
        injection hr'
      refine ⟨?_, ?_, ?_, ?_⟩ <;> simp [hok.1, hok.2.1, hok.2.2.1, hq]
    · intro hp; cases hp
    · intro r' hp; cases hp
    · intro r' hp hr'
      obtain rfl : ({ r with status := .processing, progress := 0 } : JobRecord) = r' := by
        injection hr'
      rfl
    · intro r' hp; cases hp
    · intro hp; cases hp
  | hook r ev d c =>
    have hpr : r.status = .processing := h.running_processing r rfl rfl
    have hok : recordOK r := h.rec_ok r rfl
    have hc : c = false := by
      cases c with
      | false => rfl
      | true => exact absurd (h.pending_completed r rfl rfl) (by simp [hpr])
    subst hc
    constructor
    · intro r' hr'
      obtain rfl : ({ r with progress := progress_hook ev r.progress } : JobRecord) = r' := by
        injection hr'
      refine ⟨?_, ?_, ?_, ?_⟩ <;> simp [hok.1, hok.2.1, hok.2.2.1, hpr]
    · intro hp; cases hp
    · intro r' hp; cases hp
    · intro r' hp hr'
      obtain rfl : ({ r with progress := progress_hook ev r.progress } : JobRecord) = r' := by
        injection hr'
      exact hpr
    · intro r' hp; cases hp
    · intro hp; cases hp
  | finish r job_dir res d c =>
    have hpr : r.status = .processing := h.running_processing r rfl rfl
    have hok : recordOK r := h.rec_ok r rfl
    have hfp : r.file_path = none := by
      have := hok.1
      simp [hpr] at this
      exact Option.not_isSome_iff_eq_none.mp (by simp [this])
    have hfn : r.filename = none := by
      have := hok.2.1
      simp [hpr] at this
      exact Option.not_isSome_iff_eq_none.mp (by simp [this])
    have herr : r.error = none := by
      have := hok.2.2.1
      simp [hpr] at this
      exact Option.not_isSome_iff_eq_none.mp (by simp [this])
    have hc : c = false := by
      cases c with
      | false => rfl
      | true => exact absurd (h.pending_completed r rfl rfl) (by simp [hpr])
    subst hc
    constructor
    · intro r' hr'
      obtain rfl : (finishJob r job_dir res).1 = r' := by injection hr'
      cases res with
      | error msg => simp [finishJob, recordOK, hfp, hfn]
      | ok info =>
        cases hra : resolveArtifact job_dir info with
        | error msg => simp [finishJob, hra, recordOK, hfp, hfn]
        | ok fp => simp [finishJob, hra, recordOK, herr]
    · intro hp; cases hp
    · intro r' hp; cases hp
    · intro r' hp; cases hp
    · intro r' hp; cases hp
    · intro hp; cases hp
  | retrieve r p d c hc =>
    constructor
    · exact fun r' hr' => h.rec_ok r' hr'
    · intro hp; exact absurd (h.idle_none hp) (by simp)
    · exact fun r' hp hr' => h.notStarted_queued r' hp hr'
    · exact fun r' hp hr' => h.running_processing r' hp hr'
    · intro r' _ hr'
      obtain rfl : r = r' := by injection hr'
      exact hc
    · intro _; simp
  | cleanup r p d =>
    constructor
    · intro r' hr'; cases hr'
    · intro _; rfl
    · intro r' _ hr'; cases hr'
    · intro r' _ hr'; cases hr'
    · intro r' hp; cases hp
    · intro hp; cases hp

theorem reach_inv {s : JobState} (h : Reach s) : Inv s := by
  induction h with
  | refl => exact inv_init
  | tail _ hstep ih => exact inv_step ih hstep

/-- The legal moves of the status field: stay put, `queued → processing`,
or `processing → completed | failed`.  In particular a terminal status
can only stay put. -/
def StatusLe (a b : Status) : Prop :=
  a = b ∨ (a = .queued ∧ b = .processing) ∨
    (a = .processing ∧ (b = .completed ∨ b = .failed))

theorem statusLe_terminal {a b : Status} (h : StatusLe a b)
    (ht : a = .completed ∨ a = .failed) : b = a := by
  rcases h with rfl | ⟨rfl, rfl⟩ | ⟨rfl, rfl | rfl⟩ <;>
    first
      | rfl
      | (rcases ht with ht | ht <;> cases ht)

theorem statusLe_of_step {s s' : JobState} {r r' : JobRecord} (hinv : Inv s)
    (hstep : Step s s') (hr : s.record = some r) (hr' : s'.record = some r') :
    StatusLe r.status r'.status := by
  cases hstep with
  | enqueue url d c => cases hr
  | start r₀ d c =>
    have h1 : r = r₀ := by injection hr with h; exact h.symm
    have h2 : r' = { r₀ with status := .processing, progress := 0 } := by
      injection hr' with h; exact h.symm
    rw [h1, h2]
    exact Or.inr (Or.inl ⟨hinv.notStarted_queued r₀ rfl rfl, rfl⟩)
  | hook r₀ ev d c =>
    have h1 : r = r₀ := by injection hr with h; exact h.symm
    have h2 : r' = { r₀ with progress := progress_hook ev r₀.progress } := by
      injection hr' with h; exact h.symm
    rw [h1, h2]
    exact Or.inl rfl
  | finish r₀ job_dir res d c =>
    have h1 : r = r₀ := by injection hr with h; exact h.symm
    have h2 : r' = (finishJob r₀ job_dir res).1 := by injection hr' with h; exact h.symm
    rw [h1, h2]
    have hpr : r₀.status = .processing := hinv.running_processing r₀ rfl rfl
    cases res with
    | error msg => exact Or.inr (Or.inr ⟨hpr, by simp [finishJob]⟩)
    | ok info =>
      cases hra : resolveArtifact job_dir info with
      | error msg => exact Or.inr (Or.inr ⟨hpr, by simp [finishJob, hra]⟩)
      | ok fp => exact Or.inr (Or.inr ⟨hpr, by simp [finishJob, hra]⟩)
  | retrieve r₀ p d c hc =>
    have h1 : r = r₀ := by injection hr with h; exact h.symm
    have h2 : r' = r₀ := by injection hr' with h; exact h.symm
    rw [h1, h2]
    exact Or.inl rfl
  | cleanup r₀ p d => cases hr'

/-- No event can fire on a job whose stored status is `failed`: the
runner has returned, a retrieval is refused by the status guard, and no
cleanup is pending.  This is the engine behind claim C10. -/
theorem no_step_from_failed {s s' : JobState} {r : JobRecord} (hinv : Inv s)
    (hr : s.record = some r) (hf : r.status = .failed) (hstep : Step s s') : False := by
  cases hstep with
  | enqueue url d c => cases hr
  | start r₀ d c =>
    have h1 : r = r₀ := by injection hr with h; exact h.symm
    rw [h1] at hf
    exact absurd (hinv.notStarted_queued r₀ rfl rfl) (by simp [hf])
  | hook r₀ ev d c =>
    have h1 : r = r₀ := by injection hr with h; exact h.symm
    rw [h1] at hf
    exact absurd (hinv.running_processing r₀ rfl rfl) (by simp [hf])
  | finish r₀ job_dir res d c =>
    have h1 : r = r₀ := by injection hr with h; exact h.symm
    rw [h1] at hf
    exact absurd (hinv.running_processing r₀ rfl rfl) (by simp [hf])
  | retrieve r₀ p d c hc =>
    have h1 : r = r₀ := by injection hr with h; exact h.symm
    rw [h1] at hf
    exact absurd hc (by simp [hf])
  | cleanup r₀ p d =>
    have h1 : r = r₀ := by injection hr with h; exact h.symm
    rw [h1] at hf
    exact absurd (hinv.pending_completed r₀ rfl rfl) (by simp [hf])

/-! ### Concrete reachable states used by witnesses and counterexamples -/

/-- A freshly enqueued record for URL `"u"`. -/
def jobQ : JobRecord := initialJob "u"

/-- The same record after `process_download` has entered `processing`. -/
def jobP : JobRecord := { jobQ with status := .processing, progress := 0 }

/-- A fetch result whose info carries `requested_downloads`. -/
def fetchOKInfo : FetchInfo := ⟨some ["downloads/j/v.mp4"], []⟩

/-- The record after a successful run on `fetchOKInfo`. -/
def jobC : JobRecord := (finishJob jobP "downloads/j" (.ok fetchOKInfo)).1

/-- The record after a run that raised `"boom"`. -/
def jobF : JobRecord := (finishJob jobP "downloads/j" (.error "boom")).1

def stQ : JobState := ⟨some jobQ, .notStarted, false, false⟩
def stP : JobState := ⟨some jobP, .running, true, false⟩
def stC : JobState := ⟨some jobC, .done, true, false⟩
def stF : JobState := ⟨some jobF, .done, false, false⟩

theorem reach_stQ : Reach stQ :=
  Relation.ReflTransGen.single (Step.enqueue "u" false false)

theorem step_stQ_stP : Step stQ stP := Step.start jobQ false false

theorem reach_stP : Reach stP := reach_stQ.tail step_stQ_stP

theorem reach_stC : Reach stC :=
  reach_stP.tail (Step.finish jobP "downloads/j" (.ok fetchOKInfo) true false)

theorem reach_stF : Reach stF :=
  reach_stP.tail (Step.finish jobP "downloads/j" (.error "boom") true false)

/-! ### Claim theorems -/

/-- Claim C2: in every reachable state, a stored record has its
artifact-path and filename fields populated exactly when its status is
`completed` and its error field populated exactly when its status is
`failed`; and every lifecycle event moves the status only along
`queued → processing → (completed | failed)`, in particular never out of
a terminal state. -/
theorem lifecycle_field_and_status_invariants (s s' : JobState) (r r' : JobRecord)
    (hs : Reach s) :
    (s.record = some r →
      (r.file_path.isSome ↔ r.status = .completed) ∧
      (r.filename.isSome ↔ r.status = .completed) ∧
      (r.error.isSome ↔ r.status = .failed)) ∧
    (Step s s' → s.record = some r → s'.record = some r' →
      StatusLe r.status r'.status) ∧
    (Step s s' → s.record = some r → s'.record = some r' →
      r.status = .completed ∨ r.status = .failed → r'.status = r.status) := by
  have hinv := reach_inv hs
  refine ⟨?_, ?_, ?_⟩
  · intro hr
    have h := hinv.rec_ok r hr
    exact ⟨h.1, h.2.1, h.2.2.1⟩
  · intro hstep hr hr'
    exact statusLe_of_step hinv hstep hr hr'
  · intro hstep hr hr' ht
    exact statusLe_terminal (statusLe_of_step hinv hstep hr hr') ht

/-- Witness for C2, at the enqueue-then-start transition of a concrete job. -/
theorem lifecycle_field_and_status_invariants_witness :
    ((jobQ.file_path.isSome ↔ jobQ.status = .completed) ∧
     (jobQ.filename.isSome ↔ jobQ.status = .completed) ∧
     (jobQ.error.isSome ↔ jobQ.status = .failed)) ∧
    StatusLe jobQ.status jobP.status := by
  have h := lifecycle_field_and_status_invariants stQ stP jobQ jobP reach_stQ
  exact ⟨h.1 rfl, h.2.1 step_stQ_stP rfl rfl⟩

/-- Claim C9: in every reachable state, a record whose status is
`completed` has its `file_path` and `filename` keys present (they are
written before the status), so the unguarded accesses of `download_file`
can never raise a `KeyError`. -/
theorem completed_record_fields_present (s : JobState) (hs : Reach s) :
    (∀ r, s.record = some r → r.status = .completed →
        r.file_path.isSome ∧ r.filename.isSome) ∧
    (∀ k, download_file s.record ≠ .error (.keyError k)) := by
  have hinv := reach_inv hs
  constructor
  · intro r hr hc
    have h := hinv.rec_ok r hr
    exact ⟨h.1.mpr hc, h.2.1.mpr hc⟩
  · intro k
    cases hrec : s.record with
    | none => simp [download_file]
    | some j =>
      by_cases hc : j.status = Status.completed
      · have h := hinv.rec_ok j hrec
        obtain ⟨fp, hfp⟩ := Option.isSome_iff_exists.mp (h.1.mpr hc)
        obtain ⟨fn, hfn⟩ := Option.isSome_iff_exists.mp (h.2.1.mpr hc)
        simp [download_file, hc, hfp, hfn]
      · simp [download_file, hc]

/-- Witness for C9, at a reachable completed job. -/
theorem completed_record_fields_present_witness :
    (jobC.file_path.isSome ∧ jobC.filename.isSome) ∧
    download_file stC.record ≠ .error (.keyError "file_path") := by
  have h := completed_record_fields_present stC reach_stC
  exact ⟨h.1 jobC rfl rfl, h.2 "file_path"⟩

/-- Claim C10: once a job's record is `failed`, no event ever removes or
changes it (the only record removal is the post-retrieval cleanup of a
*completed* job, and `failed` is terminal), so `get_status` keeps
answering `failed` with the stored error text and never `NotFound`. -/
theorem failed_record_persists (s s' : JobState) (r : JobRecord)
    (hs : Reach s) (hr : s.record = some r) (hf : r.status = .failed)
    (hsteps : Relation.ReflTransGen Step s s') :
    s'.record = some r ∧
    get_status s'.record = .ok ⟨.failed, r.progress, r.error⟩ ∧
    ∀ e, get_status s'.record ≠ .error e := by
  induction hsteps with
  | refl =>
    refine ⟨hr, by simp [hr, get_status, hf], by simp [hr, get_status]⟩
  | tail hab hbc ih =>
    exact (no_step_from_failed (reach_inv (hs.trans hab)) ih.1 hf hbc).elim

/-- Witness for C10, at a concrete failed job. -/
theorem failed_record_persists_witness :
    stF.record = some jobF ∧
    get_status stF.record = .ok ⟨.failed, 0, some "boom"⟩ := by
  have h := failed_record_persists stF stF jobF reach_stF rfl rfl
    Relation.ReflTransGen.refl
  exact ⟨h.1, h.2.1⟩

/-- Claim C1 (amended): `download_file` answers the *same* 400
`"File not ready or job failed"` error both for a job whose status is
not `completed` and for an identifier absent from the store — the two
failure conditions are not distinguishable and neither is the 404
`NotFound`; only `get_status` on an unknown identifier fails with the
404 `"Job not found"` error, which differs from the retrieval error. -/
theorem retrieve_query_failure_modes (j : JobRecord) :
    (j.status ≠ Status.completed →
      download_file (some j) = .error (.http ⟨400, "File not ready or job failed"⟩)) ∧
    download_file (none : Option JobRecord) =
      .error (.http ⟨400, "File not ready or job failed"⟩) ∧
    get_status (none : Option JobRecord) = .error ⟨404, "Job not found"⟩ ∧
    (⟨400, "File not ready or job failed"⟩ : HTTPError) ≠ ⟨404, "Job not found"⟩ := by
  refine ⟨?_, rfl, rfl, by decide⟩
  intro hj
  simp [download_file, hj]

/-- Witness for C1 (amended), at a queued record. -/
theorem retrieve_query_failure_modes_witness :
    download_file (some jobQ) =
      .error (.http ⟨400, "File not ready or job failed"⟩) ∧
    get_status (none : Option JobRecord) = .error ⟨404, "Job not found"⟩ := by
  have h := retrieve_query_failure_modes jobQ
  exact ⟨h.1 (by decide), h.2.2.1⟩

/-- Counterexample to C1 as stated: on the identifier `"x"` and an empty
store, `download_file` fails with the 400 "File not ready or job failed"
error — not the 404 `NotFound` error that `get_status` uses — and its
response is identical to the one for a known-but-queued job, so the two
failure conditions are not distinguishable. -/
theorem retrieve_unknown_id_counterexample :
    jobsGet [] "x" = none ∧
    download_file (jobsGet [] "x") =
      .error (.http ⟨400, "File not ready or job failed"⟩) ∧
    (RetrieveFail.http ⟨400, "File not ready or job failed"⟩ ≠
      RetrieveFail.http ⟨404, "Job not found"⟩) ∧
    download_file (jobsGet [] "x") = download_file (some jobQ) :=
  ⟨rfl, rfl, by decide, rfl⟩

/-- Claim C4 (amended): every exception raised by the fetch collaborator
is caught by `process_download`: the job's status becomes `failed`, the
error field is set to the exception's text (so it is non-empty exactly
when that text is), and the working directory is removed.  `finishJob`
is a total function and the `finish` step always exists, embedding the
fact that nothing propagates to any caller of the background task. -/
theorem fetch_exception_handling (r : JobRecord) (job_dir msg : String) (d c : Bool) :
    (finishJob r job_dir (.error msg)).1.status = .failed ∧
    (finishJob r job_dir (.error msg)).1.error = some msg ∧
    (finishJob r job_dir (.error msg)).2 = true ∧
    Step ⟨some r, .running, d, c⟩
         ⟨some (finishJob r job_dir (.error msg)).1, .done,
          d && !(finishJob r job_dir (.error msg)).2, c⟩ ∧
    (d && !(finishJob r job_dir (.error msg)).2) = false := by
  refine ⟨rfl, rfl, rfl, Step.finish r job_dir (.error msg) d c, ?_⟩
  simp [finishJob]

/-- Counterexample to C4 as stated: `str(e)` of an exception can be the
empty string, and the code stores it verbatim, so the error message of a
failed job is not always non-empty. -/
theorem failed_error_can_be_empty_counterexample :
    (finishJob jobP "downloads/j" (.error "")).1.status = .failed ∧
    (finishJob jobP "downloads/j" (.error "")).1.error = some "" ∧
    ("" : String).length = 0 :=
  ⟨rfl, rfl, rfl⟩

theorem append_right_eq_of_eq {a b s : String} (h : a ++ s = b ++ s) : a = b := by
  have hd : a.data ++ s.data = b.data ++ s.data := by
    have h2 := congrArg String.data h
    simpa [String.data_append] using h2
  exact String.ext (List.append_inj' hd rfl).1

/-- Claim C5: the fetch configuration built by `process_download`.  With
the audio-only flag the format expression is `bestaudio/best` with the
fixed `FFmpegExtractAudio`/`mp3`/`192` post-processor; otherwise the
selected format id is combined with `bestaudio` and merged into `mp4`,
except that the sentinel `best` selects `bestvideo+bestaudio/best`
directly, so the malformed expression `best+bestaudio/best` is never
produced for any format id. -/
theorem format_expression_build (format_id : String) :
    (buildFormatOpts format_id true).format = "bestaudio/best" ∧
    (buildFormatOpts format_id true).postprocessors =
      [{ key := "FFmpegExtractAudio", preferredcodec := "mp3",
         preferredquality := "192" }] ∧
    (buildFormatOpts "best" false).format = "bestvideo+bestaudio/best" ∧
    (format_id ≠ "best" →
      (buildFormatOpts format_id false).format = format_id ++ "+bestaudio/best") ∧
    (buildFormatOpts format_id false).merge_output_format = some "mp4" ∧
    (buildFormatOpts format_id false).format ≠ "best+bestaudio/best" := by
  refine ⟨rfl, rfl, rfl, ?_, rfl, ?_⟩
  · intro h
    simp [buildFormatOpts, h]
  · by_cases h : format_id = "best"
    · subst h
      simp [buildFormatOpts]
    · intro hcontra
      have hfmt : (buildFormatOpts format_id false).format =
          format_id ++ "+bestaudio/best" := by
        simp [buildFormatOpts, h]
      rw [hfmt] at hcontra
      have heq : format_id ++ "+bestaudio/best" = "best" ++ "+bestaudio/best" := by
        rw [hcontra]; rfl
      exact h (append_right_eq_of_eq heq)

/-- Witness for C5, at the concrete format id `"137"`. -/
theorem format_expression_build_witness :
    (buildFormatOpts "137" false).format = "137" ++ "+bestaudio/best" ∧
    (buildFormatOpts "137" true).format = "bestaudio/best" := by
  have h := format_expression_build "137"
  exact ⟨h.2.2.2.1 (by decide), h.1⟩

/-- Claim C6: artifact determination after a successful fetch.  The
explicit `requested_downloads` descriptor is preferred when present;
when absent, the sole entry of the job directory is taken (joined onto
the directory); and when the directory is empty the run raises
"File not found after download", which the `except` turns into the
`failed` state with that explicit error (and directory removal) rather
than succeeding without an artifact or crashing. -/
theorem artifact_resolution (job_dir fp g : String) (fps files : List String)
    (r : JobRecord) :
    resolveArtifact job_dir ⟨some (fp :: fps), files⟩ = .ok fp ∧
    resolveArtifact job_dir ⟨none, [g]⟩ = .ok (job_dir ++ "/" ++ g) ∧
    resolveArtifact job_dir ⟨none, []⟩ = .error "File not found after download" ∧
    (finishJob r job_dir (.ok ⟨none, []⟩)).1.status = .failed ∧
    (finishJob r job_dir (.ok ⟨none, []⟩)).1.error =
      some "File not found after download" ∧
    (finishJob r job_dir (.ok ⟨none, []⟩)).2 = true :=
  ⟨rfl, rfl, rfl, rfl, rfl, rfl⟩

/-- Claim C8: the progress hook stores `downloaded / total * 100` when
the coalesced total is truthy, leaves the stored progress unchanged when
it is not, stores `99` (not `100`) on the `finished` signal, and — being
a total function whose exception flag leaves the previous value in
place — swallows exceptions instead of propagating them to yt-dlp. -/
theorem progress_hook_semantics (d : HookSample) (t : Nat) (prev : ℚ)
    (r : JobRecord) (de c : Bool) :
    (d.raises = false → effectiveTotal d.total_bytes d.total_bytes_estimate = some t →
      progress_hook (.downloading d) prev =
        ((d.downloaded_bytes.getD 0 : ℚ) / (t : ℚ)) * 100) ∧
    (effectiveTotal d.total_bytes d.total_bytes_estimate = none →
      progress_hook (.downloading d) prev = prev) ∧
    (d.raises = true → progress_hook (.downloading d) prev = prev) ∧
    progress_hook .finished prev = 99 ∧
    (99 : ℚ) ≠ 100 ∧
    Step ⟨some r, .running, de, c⟩
         ⟨some { r with progress := progress_hook .finished r.progress },
          .running, de, c⟩ := by
  refine ⟨?_, ?_, ?_, rfl, by norm_num, Step.hook r .finished de c⟩
  · intro h1 h2
    simp [progress_hook, h1, h2]
  · intro h2
    cases hr : d.raises <;> simp [progress_hook, hr, h2]
  · intro h1
    simp [progress_hook, h1]

/-- Witness for C8, at a concrete sample of 50 bytes out of 200. -/
theorem progress_hook_semantics_witness :
    progress_hook (.downloading ⟨some 200, none, some 50, false⟩) 7 =
      ((50 : ℚ) / 200) * 100 ∧
    progress_hook .finished 7 = 99 := by
  have h := progress_hook_semantics ⟨some 200, none, some 50, false⟩ 200 7 jobQ true false
  refine ⟨?_, h.2.2.2.1⟩
  have h1 := h.1 rfl (by decide)
  simpa using h1

/-- A `downloading` sample with `total_bytes = 100`, `downloaded_bytes = 100`
(the last sample of a file transfer). -/
def hook100 : HookSample := ⟨some 100, none, some 100, false⟩

/-- A `downloading` sample with `total_bytes = 100`, `downloaded_bytes = 50`
(e.g. the first sample of the separate audio download that follows the
video download of a merged format). -/
def hook50 : HookSample := ⟨some 100, none, some 50, false⟩

theorem progress_hook_hook100 : progress_hook (.downloading hook100) 0 = 100 := by
  norm_num [progress_hook, hook100, effectiveTotal]

/-- Counterexample to C3 as stated: a reachable state whose record is
still `processing` yet stores `progress = 100` (the hook computes
`100 / 100 * 100` on the final sample of a transfer, with no cap below
100), followed by a single further hook step that *decreases* the stored
progress from 100 to 50 (the hook overwrites, with no monotonicity
guard — exactly what happens when a second file of the same job starts
downloading). -/
theorem progress_monotonicity_counterexample :
    Reach ⟨some { jobP with progress := 100 }, .running, true, false⟩ ∧
    ({ jobP with progress := 100 } : JobRecord).status = .processing ∧
    Step ⟨some { jobP with progress := 100 }, .running, true, false⟩
         ⟨some { jobP with progress := 50 }, .running, true, false⟩ ∧
    (50 : ℚ) < 100 := by
  refine ⟨?_, rfl, ?_, by norm_num⟩
  · have hstep := Step.hook jobP (.downloading hook100) true false
    have hprog : progress_hook (.downloading hook100) jobP.progress = 100 :=
      progress_hook_hook100
    rw [hprog] at hstep
    exact reach_stP.tail hstep
  · have hstep := Step.hook { jobP with progress := 100 } (.downloading hook50) true false
    have hprog : progress_hook (.downloading hook50)
        ({ jobP with progress := 100 } : JobRecord).progress = 50 := by
      norm_num [progress_hook, hook50, effectiveTotal]
    rw [hprog] at hstep
    exact hstep

/-- Claim C3 (amended): the hook simply overwrites the stored progress
with the value computed from the latest sample — so progress may
decrease between samples and may equal 100 while still `processing` —
and a record whose status is `completed` is guaranteed to store
`progress = 100` (set at the transition). -/
theorem progress_overwrite_and_completed (s : JobState) (r : JobRecord)
    (hs : Reach s) (hr : s.record = some r) :
    (r.status = .completed → r.progress = 100) ∧
    (∀ ev d c, Step ⟨some r, .running, d, c⟩
        ⟨some { r with progress := progress_hook ev r.progress }, .running, d, c⟩) :=
  ⟨fun hc => ((reach_inv hs).rec_ok r hr).2.2.2 hc, fun ev d c => Step.hook r ev d c⟩

/-- Witness for C3 (amended), at a reachable completed job. -/
theorem progress_overwrite_and_completed_witness :
    jobC.progress = 100 ∧
    Step ⟨some jobC, .running, true, false⟩
         ⟨some { jobC with progress := progress_hook .finished jobC.progress },
          .running, true, false⟩ := by
  have h := progress_overwrite_and_completed stC jobC reach_stC rfl
  exact ⟨h.1 rfl, h.2 .finished true false⟩

/-- `stC` after a successful `/api/download` call scheduled the cleanup. -/
def stC2 : JobState := ⟨some jobC, .done, true, true⟩

/-- The state after the scheduled `cleanup_job_dir` ran: record popped,
directory removed. -/
def stGone : JobState := ⟨none, .done, false, false⟩

theorem reach_stC2 : Reach stC2 :=
  reach_stC.tail (Step.retrieve jobC .done true false rfl)

theorem reach_stGone : Reach stGone :=
  reach_stC2.tail (Step.cleanup jobC .done true)

/-- Counterexample to C7 as stated: after a successful `Retrieve` and
its cleanup (a concrete reachable trace through `retrieve` and
`cleanup`), a subsequent `Query` does fail with the 404 `NotFound`, but
a subsequent `Retrieve` fails with the 400 "File not ready or job
failed" error — which is not the `NotFound` error. -/
theorem retrieve_after_cleanup_counterexample :
    Reach stGone ∧ stGone.record = none ∧
    download_file stGone.record =
      .error (.http ⟨400, "File not ready or job failed"⟩) ∧
    get_status stGone.record = .error ⟨404, "Job not found"⟩ ∧
    (RetrieveFail.http ⟨400, "File not ready or job failed"⟩ ≠
      RetrieveFail.http ⟨404, "Job not found"⟩) :=
  ⟨reach_stGone, rfl, rfl, rfl, by decide⟩

/-- Claim C7 (amended): from any reachable state in which a successful
`Retrieve` has scheduled the cleanup, the cleanup step removes the
record and the working directory; afterwards a `Query` for the same id
fails with the 404 `NotFound`, while a repeated `Retrieve` fails with
the same 400 not-ready error used before completion (not `NotFound`). -/
theorem cleanup_after_retrieve (r : JobRecord) (p : Phase) (d : Bool)
    (_hs : Reach ⟨some r, p, d, true⟩) :
    Step ⟨some r, p, d, true⟩ ⟨none, p, false, false⟩ ∧
    get_status (none : Option JobRecord) = .error ⟨404, "Job not found"⟩ ∧
    download_file (none : Option JobRecord) =
      .error (.http ⟨400, "File not ready or job failed"⟩) :=
  ⟨Step.cleanup r p d, rfl, rfl⟩

/-- Witness for C7 (amended), at the concrete post-retrieval state. -/
theorem cleanup_after_retrieve_witness :
    Step stC2 stGone ∧
    get_status (none : Option JobRecord) = .error ⟨404, "Job not found"⟩ := by
  have h := cleanup_after_retrieve jobC .done true reach_stC2
  exact ⟨h.1, h.2.1⟩

end YTApp
